import Mathlib

/-!
Verification of `scripts/get_cloudflare_ips.py` (pidb repository).

The development shallowly embeds the probing-and-ranking pipeline:

* `test_ip_http_latency` — the HTTP probe, modelled as a total function from
  the observable network outcome of the single `requests.get` call to the
  latency value the Python function returns (`float('inf')` on any failure,
  since both `except requests.exceptions.RequestException` and the
  catch-all `except Exception` return `float('inf')`).
* `get_best_ips` — the ranker: it collects the completed probe results in
  completion order (`concurrent.futures.as_completed`), keeps the results
  different from `float('inf')`, sorts them stably ascending by latency
  (Python's `list.sort(key=lambda x: x[0])` is stable, as is
  `List.insertionSort`), truncates to `num_ips` and projects the addresses.
  The nondeterministic completion order is an explicit argument
  (`completed`), a permutation of the submitted candidate list; the outcome
  of each probe task (a returned latency or a raised exception, caught by
  the `try/except` around `future.result()`) is a function of the address.
* `network_address` / `select_ipv4` / `select_ipv6` — the address-selection
  loops of `main`, which append `str(network.network_address)` for every
  parsed range of either family (`ipaddress.ip_network(..., strict=False)`
  zeroes the host bits of the written address).
* `write_ips_to_file` / `main_write_phase` — the output phase of `main`,
  with Python exceptions modelled by `Except`: the `except IOError` handler
  inside `write_ips_to_file` converts an I/O failure into a printed report,
  so `main` proceeds from the IPv4 write to the IPv6 probe-and-write.

Latencies are modelled over `ℚ` (the source measures wall-clock seconds as
floats and multiplies by 1000; only ordering and the infinity sentinel
matter to the ranked output).
-/

namespace Pidb

/-- A candidate address, as the Python code handles it: a string. -/
abbrev IP := String

/-- The value returned by one call of `test_ip_http_latency`: either a real
latency in milliseconds or the unreachable sentinel `float('inf')`. -/
inductive Latency where
  | val (q : ℚ)
  | inf
deriving DecidableEq

/-- A Python exception, as relevant to this script: `IOError` (`OSError`),
which `write_ips_to_file` catches, or any other exception. -/
inductive PyExn where
  | ioError
  | other
deriving DecidableEq

/-- The relation by which `get_best_ips` sorts its `(latency, ip)` pairs:
`best_ips.sort(key=lambda x: x[0])`. -/
def latLe (p q : ℚ × IP) : Prop := p.1 ≤ q.1

instance : DecidableRel latLe := fun p q => inferInstanceAs (Decidable (p.1 ≤ q.1))

instance : IsTotal (ℚ × IP) latLe := ⟨fun p q => le_total p.1 q.1⟩

instance : IsTrans (ℚ × IP) latLe := ⟨fun _ _ _ h h2 => le_trans h h2⟩

/-- The result-collection loop of `get_best_ips`: for each future in
completion order, `future.result()` either returns a latency or raises
(`outcomes ip` is `Except.error e` in the latter case, swallowed by the
`except Exception: pass`); a returned latency is appended as
`(latency, ip)` exactly when `latency != float('inf')`. -/
def collectResults {ε : Type} (outcomes : IP → Except ε Latency) : List IP → List (ℚ × IP)
  | [] => []
  | ip :: rest =>
    match outcomes ip with
    | Except.ok (Latency.val q) => (q, ip) :: collectResults outcomes rest
    | Except.ok Latency.inf => collectResults outcomes rest
    | Except.error _ => collectResults outcomes rest

/-- The per-address test of the collection loop, functionally: `some (q, ip)`
iff the probe task for `ip` returned a finite latency `q`. -/
def probeEntry {ε : Type} (outcomes : IP → Except ε Latency) (ip : IP) : Option (ℚ × IP) :=
  match outcomes ip with
  | Except.ok (Latency.val q) => some (q, ip)
  | Except.ok Latency.inf => none
  | Except.error _ => none

/-- `get_best_ips(ip_list, num_ips)`: collect the finite results in
completion order `completed`, sort stably ascending by latency, take the
first `num_ips` pairs and return their addresses. -/
def get_best_ips {ε : Type} (outcomes : IP → Except ε Latency) (completed : List IP)
    (num_ips : ℕ) : List IP :=
  (((collectResults outcomes completed).insertionSort latLe).take num_ips).map Prod.snd

/-- The latency a probe task measured for `ip`, when it returned a finite
one (defaulting to `0` otherwise); used only to state sortedness of the
ranked output. -/
def measuredQ {ε : Type} (outcomes : IP → Except ε Latency) (ip : IP) : ℚ :=
  match outcomes ip with
  | Except.ok (Latency.val q) => q
  | Except.ok Latency.inf => 0
  | Except.error _ => 0

theorem collectResults_eq_filterMap {ε : Type} (outcomes : IP → Except ε Latency)
    (l : List IP) : collectResults outcomes l = l.filterMap (probeEntry outcomes) := by
  induction l with
  | nil => rfl
  | cons ip rest ih =>
    simp only [collectResults, probeEntry, List.filterMap_cons]
    rcases h : outcomes ip with e | lat
    · simpa [h] using ih
    · cases lat <;> simpa [h] using ih

theorem mem_collectResults {ε : Type} {outcomes : IP → Except ε Latency} {l : List IP}
    {p : ℚ × IP} (hp : p ∈ collectResults outcomes l) :
    p.2 ∈ l ∧ outcomes p.2 = Except.ok (Latency.val p.1) := by
  rw [collectResults_eq_filterMap] at hp
  rcases List.mem_filterMap.mp hp with ⟨ip, hmem, hentry⟩
  unfold probeEntry at hentry
  rcases h : outcomes ip with e | lat
  · rw [h] at hentry; cases hentry
  · cases lat with
    | val q =>
      rw [h] at hentry
      cases hentry
      exact ⟨hmem, h⟩
    | inf => rw [h] at hentry; cases hentry

theorem measuredQ_eq {ε : Type} {outcomes : IP → Except ε Latency} {ip : IP} {q : ℚ}
    (h : outcomes ip = Except.ok (Latency.val q)) : measuredQ outcomes ip = q := by
  simp [measuredQ, h]

theorem mem_take_collect {ε : Type} {outcomes : IP → Except ε Latency} {completed : List IP}
    {num_ips : ℕ} {p : ℚ × IP}
    (hp : p ∈ ((collectResults outcomes completed).insertionSort latLe).take num_ips) :
    p.2 ∈ completed ∧ outcomes p.2 = Except.ok (Latency.val p.1) :=
  mem_collectResults
    ((List.perm_insertionSort latLe (collectResults outcomes completed)).subset
      (List.mem_of_mem_take hp))

/-- C1. `get_best_ips` returns at most `num_ips` addresses, sorted
non-decreasing by their measured latency, every one of them backed by a
probe task that returned a finite latency — never the `float('inf')`
sentinel. -/
theorem get_best_ips_length_sorted_reachable {ε : Type} (outcomes : IP → Except ε Latency)
    (completed : List IP) (num_ips : ℕ) :
    (get_best_ips outcomes completed num_ips).length ≤ num_ips ∧
    (get_best_ips outcomes completed num_ips).Pairwise
      (fun a b => measuredQ outcomes a ≤ measuredQ outcomes b) ∧
    ∀ ip ∈ get_best_ips outcomes completed num_ips,
      (∃ q, outcomes ip = Except.ok (Latency.val q)) ∧
      outcomes ip ≠ Except.ok Latency.inf := by
  refine ⟨?_, ?_, ?_⟩
  · simp only [get_best_ips, List.length_map, List.length_take]
    exact min_le_left _ _
  · rw [get_best_ips, List.pairwise_map]
    have hs : ((collectResults outcomes completed).insertionSort latLe).Pairwise latLe :=
      List.sorted_insertionSort latLe (collectResults outcomes completed)
    have ht := hs.sublist (List.take_sublist num_ips _)
    refine ht.imp_of_mem ?_
    intro p q hpmem hqmem hle
    rw [measuredQ_eq (mem_take_collect hpmem).2, measuredQ_eq (mem_take_collect hqmem).2]
    exact hle
  · intro ip hip
    rw [get_best_ips] at hip
    rcases List.mem_map.mp hip with ⟨p, hpmem, rfl⟩
    have h := (mem_take_collect hpmem).2
    exact ⟨⟨p.1, h⟩, by simp [h]⟩

/-- C9. Every address returned by `get_best_ips` is one of the submitted
candidates: ranking never invents an address. -/
theorem get_best_ips_subset_of_candidates {ε : Type} (outcomes : IP → Except ε Latency)
    (ip_list completed : List IP) (num_ips : ℕ) (hperm : completed.Perm ip_list) :
    ∀ ip ∈ get_best_ips outcomes completed num_ips, ip ∈ ip_list := by
  intro ip hip
  rw [get_best_ips] at hip
  rcases List.mem_map.mp hip with ⟨p, hpmem, rfl⟩
  exact hperm.subset (mem_take_collect hpmem).1

/-- Witness for C9 at a concrete completion order, a permutation of the
candidate list. -/
theorem get_best_ips_subset_of_candidates_witness :
    List.Perm ["1.1.1.1", "1.0.0.1"] ["1.0.0.1", "1.1.1.1"] ∧
    ∀ ip ∈ get_best_ips (fun _ => (Except.ok (Latency.val 1) : Except PyExn Latency))
      ["1.1.1.1", "1.0.0.1"] 5, ip ∈ ["1.0.0.1", "1.1.1.1"] :=
  ⟨by decide,
    get_best_ips_subset_of_candidates (fun _ => Except.ok (Latency.val 1))
      ["1.0.0.1", "1.1.1.1"] ["1.1.1.1", "1.0.0.1"] 5 (by decide)⟩

theorem get_best_ips_eq_of_perm {ε : Type} (outcomes : IP → Except ε Latency)
    {o₁ o₂ : List IP} (h : o₁.Perm o₂)
    (hnd : ((collectResults outcomes o₁).map Prod.fst).Nodup) (num_ips : ℕ) :
    get_best_ips outcomes o₁ num_ips = get_best_ips outcomes o₂ num_ips := by
  have hcp : (collectResults outcomes o₁).Perm (collectResults outcomes o₂) := by
    rw [collectResults_eq_filterMap, collectResults_eq_filterMap]
    exact h.filterMap _
  have hsp : ((collectResults outcomes o₁).insertionSort latLe).Perm
      ((collectResults outcomes o₂).insertionSort latLe) :=
    (List.perm_insertionSort latLe _).trans
      (hcp.trans (List.perm_insertionSort latLe _).symm)
  have strict : ∀ o : List IP, ((collectResults outcomes o).map Prod.fst).Nodup →
      ((collectResults outcomes o).insertionSort latLe).Pairwise
        (fun p q : ℚ × IP => p.1 < q.1) := by
    intro o hnodup
    have hnd₁ : (((collectResults outcomes o).insertionSort latLe).map Prod.fst).Nodup :=
      (((List.perm_insertionSort latLe _).map Prod.fst).nodup_iff).mpr hnodup
    have hne : ((collectResults outcomes o).insertionSort latLe).Pairwise
        (fun p q : ℚ × IP => p.1 ≠ q.1) := List.pairwise_map.mp hnd₁
    have hle : ((collectResults outcomes o).insertionSort latLe).Pairwise latLe :=
      List.sorted_insertionSort latLe _
    exact (hle.and hne).imp fun hab => lt_of_le_of_ne hab.1 hab.2
  have hnd₂ : ((collectResults outcomes o₂).map Prod.fst).Nodup :=
    ((hcp.map Prod.fst).nodup_iff).mp hnd
  haveI : IsAntisymm (ℚ × IP) (fun p q : ℚ × IP => p.1 < q.1) :=
    ⟨fun a b h1 h2 => absurd (lt_trans h1 h2) (lt_irrefl _)⟩
  have heq : (collectResults outcomes o₁).insertionSort latLe =
      (collectResults outcomes o₂).insertionSort latLe :=
    List.eq_of_perm_of_sorted hsp (strict o₁ hnd) (strict o₂ hnd₂)
  rw [get_best_ips, get_best_ips, heq]

/-- C7 counterexample. With two candidates whose probes measure the same
latency, two completion orders of the same candidate list (they are
permutations of each other) make `get_best_ips` return different ordered
outputs: the stable sort keeps the completion order among ties. -/
theorem get_best_ips_tie_order_dependent :
    List.Perm ["1.0.0.1", "1.1.1.1"] ["1.1.1.1", "1.0.0.1"] ∧
    get_best_ips (fun _ => (Except.ok (Latency.val 5) : Except PyExn Latency))
        ["1.0.0.1", "1.1.1.1"] 1 ≠
      get_best_ips (fun _ => (Except.ok (Latency.val 5) : Except PyExn Latency))
        ["1.1.1.1", "1.0.0.1"] 1 := by
  decide

/-- C7 (amended). Over a fixed latency map, two runs of `get_best_ips`
whose completion orders are permutations of each other return the same
ordered output, provided no two successful probes measured the same
latency. -/
theorem get_best_ips_deterministic_of_nodup {ε : Type} (outcomes : IP → Except ε Latency)
    (o₁ o₂ : List IP) (num_ips : ℕ) (h : o₁.Perm o₂)
    (hnd : ((collectResults outcomes o₁).map Prod.fst).Nodup) :
    get_best_ips outcomes o₁ num_ips = get_best_ips outcomes o₂ num_ips :=
  get_best_ips_eq_of_perm outcomes h hnd num_ips

/-- Witness for C7 (amended) at a concrete pair of completion orders with
distinct latencies. -/
theorem get_best_ips_deterministic_of_nodup_witness :
    List.Perm ["1.0.0.1", "1.1.1.1"] ["1.1.1.1", "1.0.0.1"] ∧
    ((collectResults (fun ip => if ip = "1.0.0.1" then
        (Except.ok (Latency.val 5) : Except PyExn Latency) else Except.ok (Latency.val 7))
        ["1.0.0.1", "1.1.1.1"]).map Prod.fst).Nodup ∧
    get_best_ips (fun ip => if ip = "1.0.0.1" then
        (Except.ok (Latency.val 5) : Except PyExn Latency) else Except.ok (Latency.val 7))
        ["1.0.0.1", "1.1.1.1"] 1 =
      get_best_ips (fun ip => if ip = "1.0.0.1" then
        (Except.ok (Latency.val 5) : Except PyExn Latency) else Except.ok (Latency.val 7))
        ["1.1.1.1", "1.0.0.1"] 1 :=
  ⟨by decide, by decide,
    get_best_ips_deterministic_of_nodup _ ["1.0.0.1", "1.1.1.1"] ["1.1.1.1", "1.0.0.1"] 1
      (by decide) (by decide)⟩

/-- The six mocked candidates of the spec's concrete ranking example. -/
def c2Candidates : List IP :=
  ["104.16.0.0", "104.17.0.0", "104.18.0.0", "104.19.0.0", "104.20.0.0", "104.21.0.0"]

/-- The mocked probe latencies [50, 200, unreachable, 10, unreachable, 75]
(milliseconds) for `c2Candidates`, in order. -/
def c2Outcomes : IP → Except PyExn Latency := fun ip =>
  if ip = "104.16.0.0" then Except.ok (Latency.val 50)
  else if ip = "104.17.0.0" then Except.ok (Latency.val 200)
  else if ip = "104.18.0.0" then Except.ok Latency.inf
  else if ip = "104.19.0.0" then Except.ok (Latency.val 10)
  else if ip = "104.20.0.0" then Except.ok Latency.inf
  else if ip = "104.21.0.0" then Except.ok (Latency.val 75)
  else Except.ok Latency.inf

/-- C2. On the spec's mocked input — six candidates with latencies
[50, 200, unreachable, 10, unreachable, 75] and `num_ips = 3` —
`get_best_ips` returns exactly the candidates with latencies 10, 50, 75 in
that order, whatever the completion order of the probe tasks. -/
theorem get_best_ips_mocked_latencies (completed : List IP)
    (h : completed.Perm c2Candidates) :
    get_best_ips c2Outcomes completed 3 = ["104.19.0.0", "104.16.0.0", "104.21.0.0"] := by
  have hc : (collectResults c2Outcomes completed).Perm
      (collectResults c2Outcomes c2Candidates) := by
    rw [collectResults_eq_filterMap, collectResults_eq_filterMap]
    exact h.filterMap _
  have hnd : ((collectResults c2Outcomes completed).map Prod.fst).Nodup :=
    ((hc.map Prod.fst).nodup_iff).mpr (by decide)
  rw [get_best_ips_eq_of_perm c2Outcomes h hnd 3]
  decide

/-- Witness for C2 at the identity completion order. -/
theorem get_best_ips_mocked_latencies_witness :
    List.Perm c2Candidates c2Candidates ∧
    get_best_ips c2Outcomes c2Candidates 3 =
      ["104.19.0.0", "104.16.0.0", "104.21.0.0"] :=
  ⟨List.Perm.refl _, get_best_ips_mocked_latencies c2Candidates (List.Perm.refl _)⟩

/-- Replace every probe task that raised an exception by one that returned
the unreachable sentinel. -/
def exnAsUnreachable {ε : Type} (outcomes : IP → Except ε Latency) : IP → Except ε Latency :=
  fun ip =>
    match outcomes ip with
    | Except.error _ => Except.ok Latency.inf
    | Except.ok l => Except.ok l

/-- C10. `get_best_ips` treats a probe task that raised an exception
(caught by the `try/except` around `future.result()`) exactly like one
that returned the unreachable sentinel: the ranked output is unchanged if
every raising task is replaced by one returning `float('inf')`. Being a
total Lean function, `get_best_ips` itself never fails. -/
theorem get_best_ips_exceptions_as_unreachable {ε : Type}
    (outcomes : IP → Except ε Latency) (completed : List IP) (num_ips : ℕ) :
    get_best_ips outcomes completed num_ips =
      get_best_ips (exnAsUnreachable outcomes) completed num_ips := by
  have hcoll : ∀ l : List IP,
      collectResults outcomes l = collectResults (exnAsUnreachable outcomes) l := by
    intro l
    induction l with
    | nil => rfl
    | cons ip rest ih =>
      simp only [collectResults, exnAsUnreachable]
      rcases hout : outcomes ip with e | lat
      · simpa [hout] using ih
      · cases lat <;> simpa [hout] using ih
  rw [get_best_ips, get_best_ips, hcoll]

/-- The observable outcome of the single `requests.get(test_url, ...)` call
inside `test_ip_http_latency`: a completed response with its status code and
the elapsed wall-clock seconds, or one of the failure modes the code can
hit (every one of them surfaces as a raised exception in Python). -/
inductive HttpOutcome where
  | response (status : ℕ) (elapsed : ℚ)
  | timeout
  | connectionRefused
  | certError
  | transportError
  | otherError
deriving DecidableEq

/-- `test_ip_http_latency`: on a completed response, `raise_for_status()`
raises `HTTPError` (a `RequestException`, hence caught, returning
`float('inf')`) exactly for 4xx/5xx statuses; otherwise the function
returns the elapsed seconds times 1000. Every raised exception —
`requests.exceptions.RequestException` (timeout, connection refusal,
SSL/certificate, other transport errors) and the catch-all
`except Exception` — is converted to `float('inf')`, so the function is
total and never propagates an error. -/
def test_ip_http_latency (ip : IP) (outcome : HttpOutcome) : Latency :=
  match outcome with
  | HttpOutcome.response status elapsed =>
    if 400 ≤ status ∧ status < 600 then Latency.inf
    else Latency.val (elapsed * 1000)
  | _ => Latency.inf

/-- The failure modes of a probe: every non-response outcome, and a
completed response whose status makes `raise_for_status()` raise. -/
def probe_fails (outcome : HttpOutcome) : Prop :=
  match outcome with
  | HttpOutcome.response status _ => 400 ≤ status ∧ status < 600
  | _ => True

/-- C5. Any two failing probes — timeout, connection refusal, error
status, certificate or transport error, or any other exception — produce
the same unreachable sentinel `float('inf')`, returned as a value rather
than raised: in particular a timeout is indistinguishable in the probe's
output from a connection refusal. -/
theorem test_ip_http_latency_uniform_unreachable (ip ip' : IP)
    (o o' : HttpOutcome) (h : probe_fails o) (h' : probe_fails o') :
    test_ip_http_latency ip o = Latency.inf ∧
    test_ip_http_latency ip o = test_ip_http_latency ip' o' := by
  cases o <;> cases o' <;>
    simp_all [test_ip_http_latency, probe_fails]

/-- Witness for C5: a timeout and a connection refusal yield the same
sentinel. -/
theorem test_ip_http_latency_uniform_unreachable_witness :
    probe_fails HttpOutcome.timeout ∧ probe_fails HttpOutcome.connectionRefused ∧
    (test_ip_http_latency "104.16.0.0" HttpOutcome.timeout = Latency.inf ∧
      test_ip_http_latency "104.16.0.0" HttpOutcome.timeout =
        test_ip_http_latency "104.17.0.0" HttpOutcome.connectionRefused) :=
  ⟨trivial, trivial,
    test_ip_http_latency_uniform_unreachable "104.16.0.0" "104.17.0.0"
      HttpOutcome.timeout HttpOutcome.connectionRefused trivial trivial⟩

/-- `ipaddress.ip_network(s, strict=False).network_address` for an address
whose integer value is `a` and prefix length `p`, over a `w`-bit family:
the host bits (the low `w - p` bits) are zeroed. -/
def network_address (w a p : ℕ) : ℕ := a / 2 ^ (w - p) * 2 ^ (w - p)

/-- `x` lies in the CIDR block written `a/p` over a `w`-bit family: it has
the same network prefix. -/
def cidr_member (w a p x : ℕ) : Prop := x / 2 ^ (w - p) = a / 2 ^ (w - p)

/-- The IPv4 branch of `main`: it appends
`str(network.network_address)` for every parsed range. -/
def select_ipv4 (a p : ℕ) : ℕ := network_address 32 a p

/-- The IPv6 branch of `main`: it also appends
`str(network.network_address)` for every parsed range. -/
def select_ipv6 (a p : ℕ) : ℕ := network_address 128 a p

theorem network_address_mem (w a p : ℕ) : cidr_member w a p (network_address w a p) := by
  unfold cidr_member network_address
  exact Nat.mul_div_cancel _ (Nat.pos_pow_of_pos _ (by decide))

theorem network_address_least (w a p : ℕ) {y : ℕ} (h : cidr_member w a p y) :
    network_address w a p ≤ y := by
  unfold cidr_member at h
  unfold network_address
  rw [← h]
  exact Nat.div_mul_le_self y _

theorem network_address_hostbits (w a p : ℕ) :
    network_address w a p % 2 ^ (w - p) = 0 :=
  Nat.mul_mod_left _ _

/-- C3 counterexample. For a concrete multi-address IPv6 range (a /32, so
`2 ^ 96 > 1` usable addresses) the code does not pick
network-address + 1: it picks the network address itself. -/
theorem select_ipv6_not_plus_one :
    1 < 2 ^ (128 - 32) ∧
    select_ipv6 (9260 * 2 ^ 96) 32 ≠ network_address 128 (9260 * 2 ^ 96) 32 + 1 := by
  constructor
  · exact Nat.one_lt_two_pow (by decide)
  · unfold select_ipv6
    exact Nat.ne_of_lt (Nat.lt_succ_self _)

/-- C3 (amended). For every syntactically valid IPv6 range — single-address
or not — the selector picks the block's network address itself: an address
inside the block, with all host bits zero, and least among the block's
members; it never picks network-address + 1. -/
theorem select_ipv6_network_address_spec (a p : ℕ) (hp : p ≤ 128) (ha : a < 2 ^ 128) :
    cidr_member 128 a p (select_ipv6 a p) ∧
    select_ipv6 a p % 2 ^ (128 - p) = 0 ∧
    ∀ y, cidr_member 128 a p y → select_ipv6 a p ≤ y :=
  ⟨network_address_mem 128 a p, network_address_hostbits 128 a p,
    fun _ hy => network_address_least 128 a p hy⟩

/-- Witness for C3 (amended) at the concrete range of the counterexample. -/
theorem select_ipv6_network_address_spec_witness :
    32 ≤ 128 ∧ 9260 * 2 ^ 96 < 2 ^ 128 ∧
    cidr_member 128 (9260 * 2 ^ 96) 32 (select_ipv6 (9260 * 2 ^ 96) 32) :=
  ⟨by decide, by norm_num,
    (select_ipv6_network_address_spec (9260 * 2 ^ 96) 32 (by decide) (by norm_num)).1⟩

/-- C6. For every valid CIDR block of either family, the selected
candidate is a member of the block; for IPv4 it is the block's network
address itself (host bits zero, least member of the block). -/
theorem select_member_of_block (a p : ℕ) :
    (p ≤ 32 → a < 2 ^ 32 →
      cidr_member 32 a p (select_ipv4 a p) ∧
      select_ipv4 a p % 2 ^ (32 - p) = 0 ∧
      ∀ y, cidr_member 32 a p y → select_ipv4 a p ≤ y) ∧
    (p ≤ 128 → a < 2 ^ 128 → cidr_member 128 a p (select_ipv6 a p)) :=
  ⟨fun _ _ =>
      ⟨network_address_mem 32 a p, network_address_hostbits 32 a p,
        fun _ hy => network_address_least 32 a p hy⟩,
    fun _ _ => network_address_mem 128 a p⟩

/-- Witness for C6 at the block 104.16.0.0/13 (address value
`104 * 2 ^ 24 + 16 * 2 ^ 16`). -/
theorem select_member_of_block_witness :
    13 ≤ 32 ∧ 104 * 2 ^ 24 + 16 * 2 ^ 16 < 2 ^ 32 ∧
    cidr_member 32 (104 * 2 ^ 24 + 16 * 2 ^ 16) 13
      (select_ipv4 (104 * 2 ^ 24 + 16 * 2 ^ 16) 13) :=
  ⟨by decide, by norm_num,
    ((select_member_of_block (104 * 2 ^ 24 + 16 * 2 ^ 16) 13).1 (by decide)
      (by norm_num)).1⟩

/-- The probe strategies named by the spec's configuration taxonomy. -/
inductive ProbeStrategy where
  | icmp
  | http
deriving DecidableEq

/-- The probe strategies the source implements: the only probe function in
`get_cloudflare_ips.py` is `test_ip_http_latency`, and `get_best_ips`
submits it unconditionally for every candidate (`executor.submit(
test_ip_http_latency, ip)`); no ping/ICMP code path and no
strategy-selecting configuration exists (`subprocess`, `platform` and `re`
are imported but never used). -/
def implemented_strategies : List ProbeStrategy := [ProbeStrategy.http]

/-- Follows the spec's words (§4.3, §6): two interchangeable strategies,
ICMP and HTTP, selected by configuration. Stated for comparison with
`implemented_strategies`, which is read off the source. -/
def spec_strategies : List ProbeStrategy := [ProbeStrategy.icmp, ProbeStrategy.http]

/-- C4 counterexample. The ICMP strategy the spec offers is absent from
the source: the implemented strategy list does not contain it, so the
spec's strategy taxonomy and the code's disagree. -/
theorem icmp_not_implemented :
    ProbeStrategy.icmp ∈ spec_strategies ∧
    ProbeStrategy.icmp ∉ implemented_strategies ∧
    implemented_strategies ≠ spec_strategies := by
  decide

/-- C4 (amended). Every probe strategy the source implements is the HTTP
strategy: a run always probes with `test_ip_http_latency`, and no
configuration can select anything else. -/
theorem implemented_strategy_unique (s : ProbeStrategy)
    (h : s ∈ implemented_strategies) : s = ProbeStrategy.http :=
  List.mem_singleton.mp h

/-- Witness for C4 (amended) at the HTTP strategy. -/
theorem implemented_strategy_unique_witness :
    ProbeStrategy.http ∈ implemented_strategies ∧
    ProbeStrategy.http = ProbeStrategy.http :=
  ⟨by decide, implemented_strategy_unique ProbeStrategy.http (by decide)⟩

/-- Whether the operating system lets `open(filename, 'w')` and the writes
succeed for one output file, or fails them with an `IOError`. -/
inductive WriteOutcome where
  | succeeds
  | ioFails
deriving DecidableEq

/-- What `write_ips_to_file` reports on the console: the success message
with the count written, or the error message from the `except IOError`
handler. -/
inductive WriteReport where
  | wrote (n : ℕ)
  | reportedError
deriving DecidableEq

/-- The body of the `try:` block of `write_ips_to_file`: opening the file
and writing one line per address. It raises only `IOError` (file
operations raise `OSError = IOError`; the f-string writes cannot fail). -/
def write_body (o : WriteOutcome) (ips : List IP) : Except PyExn ℕ :=
  match o with
  | WriteOutcome.succeeds => Except.ok ips.length
  | WriteOutcome.ioFails => Except.error PyExn.ioError

/-- `write_ips_to_file(filename, ips)`: the `try/except IOError` turns an
I/O failure into a printed report; any non-`IOError` exception (which
`write_body` never produces) would propagate. -/
def write_ips_to_file (o : WriteOutcome) (ips : List IP) : Except PyExn WriteReport :=
  match write_body o ips with
  | Except.ok n => Except.ok (WriteReport.wrote n)
  | Except.error PyExn.ioError => Except.ok WriteReport.reportedError
  | Except.error PyExn.other => Except.error PyExn.other

/-- The report each family's write should produce: the count on success, a
reported (non-fatal) error on I/O failure. -/
def write_report (o : WriteOutcome) (ips : List IP) : WriteReport :=
  match o with
  | WriteOutcome.succeeds => WriteReport.wrote ips.length
  | WriteOutcome.ioFails => WriteReport.reportedError

/-- The output phase of `main`: write the ranked IPv4 list, then (only if
no exception escaped) the ranked IPv6 list; an uncaught exception in the
first write would abort before the second family. -/
def main_write_phase (o4 o6 : WriteOutcome) (best4 best6 : List IP) :
    Except PyExn (WriteReport × WriteReport) :=
  match write_ips_to_file o4 best4 with
  | Except.error e => Except.error e
  | Except.ok r4 =>
    match write_ips_to_file o6 best6 with
    | Except.error e => Except.error e
    | Except.ok r6 => Except.ok (r4, r6)

/-- C8. The output phase never crashes: whatever each family's I/O does,
it completes with both families' reports — an I/O failure on one family's
file is reported for that family only, and the other family is still
processed and written. -/
theorem main_write_phase_isolates_failures (o4 o6 : WriteOutcome) (best4 best6 : List IP) :
    main_write_phase o4 o6 best4 best6 =
      Except.ok (write_report o4 best4, write_report o6 best6) := by
  cases o4 <;> cases o6 <;> rfl

end Pidb
